import Mathlib

/-!
Verification of the cipher-suite registry core of ztools/ztls
(cipher_suites.go): the suite descriptor table, the negotiation routine
mutualCipherSuite, the suite-list catalog with its membership test
cipherInList, the primitive factories, the SSLv3 and TLS 1.0 MAC
algorithms, and the fixed-nonce AEAD wrapper.

Bytes are modelled as Nat; byte slices as List Nat.  External Go
standard-library primitives (crypto/aes, crypto/rc4, crypto/des, the raw
GCM AEAD, sha1 and hmac) are modelled by their documented contracts:
their key-size error behaviour is embedded exactly, while the actual
keystream/digest mathematics is kept parametric (a function argument or
structure field), since no claim depends on the concrete cipher output.
-/

/-- The suite id constants used by the descriptor table and the suite
lists (cipher_suites.go, IANA values). -/
def TLS_RSA_WITH_RC4_128_SHA : Nat := 0x0005

def TLS_RSA_WITH_3DES_EDE_CBC_SHA : Nat := 0x000a

def TLS_RSA_WITH_AES_128_CBC_SHA : Nat := 0x002f

def TLS_RSA_WITH_AES_256_CBC_SHA : Nat := 0x0035

def TLS_RSA_WITH_AES_128_GCM_SHA256 : Nat := 0x009C

def TLS_ECDHE_ECDSA_WITH_RC4_128_SHA : Nat := 0xc007

def TLS_ECDHE_ECDSA_WITH_AES_128_CBC_SHA : Nat := 0xc009

def TLS_ECDHE_ECDSA_WITH_AES_256_CBC_SHA : Nat := 0xc00a

def TLS_ECDHE_RSA_WITH_RC4_128_SHA : Nat := 0xc011

def TLS_ECDHE_RSA_WITH_3DES_EDE_CBC_SHA : Nat := 0xc012

def TLS_ECDHE_RSA_WITH_AES_128_CBC_SHA : Nat := 0xc013

def TLS_ECDHE_RSA_WITH_AES_256_CBC_SHA : Nat := 0xc014

def TLS_ECDHE_RSA_WITH_AES_128_GCM_SHA256 : Nat := 0xc02f

def TLS_ECDHE_ECDSA_WITH_AES_128_GCM_SHA256 : Nat := 0xc02b

def TLS_RSA_WITH_RC4_128_MD5 : Nat := 0x0004

/-- suiteECDHE flag bit (1 << 0). -/
def suiteECDHE : Nat := 1

/-- suiteECDSA flag bit (1 << 1). -/
def suiteECDSA : Nat := 2

/-- suiteTLS12 flag bit (1 << 2). -/
def suiteTLS12 : Nat := 4

/-- The key-agreement constructors referenced by the table (rsaKA,
ecdheRSAKA, ecdheECDSAKA, rsaExportKA); the table stores only which
constructor is referenced, the agreement logic lives outside this core. -/
inductive KaFactory where
  | rsaKA
  | rsaExportKA
  | ecdheRSAKA
  | ecdheECDSAKA
deriving DecidableEq, Repr

/-- The cipher factory functions referenced by the table
(cipherRC4, cipher3DES, cipherAES). -/
inductive CipherFactory where
  | cipherRC4
  | cipher3DES
  | cipherAES
deriving DecidableEq, Repr

/-- The MAC factory functions referenced by the table (only macSHA1). -/
inductive MacFactory where
  | macSHA1
deriving DecidableEq, Repr

/-- The AEAD factory functions referenced by the table (only aeadAESGCM). -/
inductive AeadFactory where
  | aeadAESGCM
deriving DecidableEq, Repr

/-- A cipherSuite descriptor: id, key-material lengths, key-agreement
selector, flags bitmask, and the (nil-able) cipher / mac / aead factory
references, exactly the fields of the Go struct. -/
structure cipherSuite where
  id : Nat
  keyLen : Nat
  macLen : Nat
  ivLen : Nat
  ka : KaFactory
  flags : Nat
  cipher : Option CipherFactory
  mac : Option MacFactory
  aead : Option AeadFactory
deriving DecidableEq, Repr

/-- The static cipherSuites table, row for row from cipher_suites.go. -/
def cipherSuites : List cipherSuite := [
  ⟨TLS_ECDHE_RSA_WITH_AES_128_GCM_SHA256, 16, 0, 4, .ecdheRSAKA, Nat.lor suiteECDHE suiteTLS12, none, none, some .aeadAESGCM⟩,
  ⟨TLS_ECDHE_ECDSA_WITH_AES_128_GCM_SHA256, 16, 0, 4, .ecdheECDSAKA, Nat.lor (Nat.lor suiteECDHE suiteECDSA) suiteTLS12, none, none, some .aeadAESGCM⟩,
  ⟨TLS_ECDHE_RSA_WITH_RC4_128_SHA, 16, 20, 0, .ecdheRSAKA, suiteECDHE, some .cipherRC4, some .macSHA1, none⟩,
  ⟨TLS_ECDHE_ECDSA_WITH_RC4_128_SHA, 16, 20, 0, .ecdheECDSAKA, Nat.lor suiteECDHE suiteECDSA, some .cipherRC4, some .macSHA1, none⟩,
  ⟨TLS_ECDHE_RSA_WITH_AES_128_CBC_SHA, 16, 20, 16, .ecdheRSAKA, suiteECDHE, some .cipherAES, some .macSHA1, none⟩,
  ⟨TLS_ECDHE_ECDSA_WITH_AES_128_CBC_SHA, 16, 20, 16, .ecdheECDSAKA, Nat.lor suiteECDHE suiteECDSA, some .cipherAES, some .macSHA1, none⟩,
  ⟨TLS_ECDHE_RSA_WITH_AES_256_CBC_SHA, 32, 20, 16, .ecdheRSAKA, suiteECDHE, some .cipherAES, some .macSHA1, none⟩,
  ⟨TLS_ECDHE_ECDSA_WITH_AES_256_CBC_SHA, 32, 20, 16, .ecdheECDSAKA, Nat.lor suiteECDHE suiteECDSA, some .cipherAES, some .macSHA1, none⟩,
  ⟨TLS_RSA_WITH_RC4_128_SHA, 16, 20, 0, .rsaKA, 0, some .cipherRC4, some .macSHA1, none⟩,
  ⟨TLS_RSA_WITH_AES_128_GCM_SHA256, 16, 0, 4, .rsaKA, 0, none, none, some .aeadAESGCM⟩,
  ⟨TLS_RSA_WITH_AES_128_CBC_SHA, 16, 20, 16, .rsaKA, 0, some .cipherAES, some .macSHA1, none⟩,
  ⟨TLS_RSA_WITH_AES_256_CBC_SHA, 32, 20, 16, .rsaKA, 0, some .cipherAES, some .macSHA1, none⟩,
  ⟨TLS_ECDHE_RSA_WITH_3DES_EDE_CBC_SHA, 24, 20, 8, .ecdheRSAKA, suiteECDHE, some .cipher3DES, some .macSHA1, none⟩,
  ⟨TLS_RSA_WITH_3DES_EDE_CBC_SHA, 24, 20, 8, .rsaKA, 0, some .cipher3DES, some .macSHA1, none⟩]

/-- mutualCipherSuite: scan the supported list for the wanted id; on a
hit, scan the global table for the descriptor with that id (the outer
loop returns unconditionally at the first hit, matching the Go code). -/
def mutualCipherSuite : List Nat → Nat → Option cipherSuite
  | [], _ => none
  | id :: rest, want =>
    if id = want then cipherSuites.find? (fun s => s.id == want)
    else mutualCipherSuite rest want

/-- RSACiphers suite list from cipher_suites.go. -/
def RSACiphers : List Nat := [
  TLS_RSA_WITH_RC4_128_SHA,
  TLS_RSA_WITH_3DES_EDE_CBC_SHA,
  TLS_RSA_WITH_AES_128_CBC_SHA,
  TLS_RSA_WITH_AES_256_CBC_SHA,
  TLS_RSA_WITH_AES_128_GCM_SHA256]

/-- Extra ids used by the Chrome/Firefox lists. -/
def TLS_DHE_RSA_WITH_AES_128_GCM_SHA256 : Nat := 0x009E

def TLS_ECDHE_ECDSA_WITH_CHACHA20_POLY1305_SHA256 : Nat := 0xCC14

def TLS_ECDHE_RSA_WITH_CHACHA20_POLY1305_SHA256 : Nat := 0xCC13

def TLS_DHE_RSA_WITH_CHACHA20_POLY1305_SHA256 : Nat := 0xCC15

def TLS_DHE_RSA_WITH_AES_256_CBC_SHA : Nat := 0x0039

def TLS_DHE_RSA_WITH_AES_128_CBC_SHA : Nat := 0x0033

def TLS_DHE_DSS_WITH_AES_128_CBC_SHA : Nat := 0x0032

/-- CBCSuiteIDList from cipher_suites.go. -/
def CBCSuiteIDList : List Nat := [
  TLS_RSA_WITH_3DES_EDE_CBC_SHA,
  TLS_RSA_WITH_AES_128_CBC_SHA,
  TLS_RSA_WITH_AES_256_CBC_SHA,
  TLS_ECDHE_ECDSA_WITH_AES_128_CBC_SHA,
  TLS_ECDHE_ECDSA_WITH_AES_256_CBC_SHA,
  TLS_ECDHE_RSA_WITH_3DES_EDE_CBC_SHA,
  TLS_ECDHE_RSA_WITH_AES_128_CBC_SHA,
  TLS_ECDHE_RSA_WITH_AES_256_CBC_SHA]

/-- FirefoxCiphers list from cipher_suites.go. -/
def FirefoxCiphers : List Nat := [
  TLS_ECDHE_ECDSA_WITH_AES_128_GCM_SHA256,
  TLS_ECDHE_RSA_WITH_AES_128_GCM_SHA256,
  TLS_ECDHE_ECDSA_WITH_AES_256_CBC_SHA,
  TLS_ECDHE_ECDSA_WITH_AES_128_CBC_SHA,
  TLS_ECDHE_RSA_WITH_AES_128_CBC_SHA,
  TLS_ECDHE_RSA_WITH_AES_256_CBC_SHA,
  TLS_DHE_RSA_WITH_AES_128_CBC_SHA,
  TLS_DHE_DSS_WITH_AES_128_CBC_SHA,
  TLS_DHE_RSA_WITH_AES_256_CBC_SHA,
  TLS_RSA_WITH_AES_128_CBC_SHA,
  TLS_RSA_WITH_AES_256_CBC_SHA,
  TLS_RSA_WITH_3DES_EDE_CBC_SHA]

/-- SChannelSuites list from cipher_suites.go. -/
def SChannelSuites : List Nat := [
  TLS_RSA_WITH_AES_128_GCM_SHA256,
  TLS_RSA_WITH_RC4_128_SHA]

/-- cipherInList: linear scan of the list for the id. -/
def cipherInList (cipher : Nat) : List Nat → Bool
  | [] => false
  | val :: rest => if cipher = val then true else cipherInList cipher rest

/-- If the wanted id occurs in the supported list, mutualCipherSuite is
the global-table lookup. -/
theorem mutualCipherSuite_mem (hv : List Nat) (want : Nat)
    (h : want ∈ hv) :
    mutualCipherSuite hv want = cipherSuites.find? (fun s => s.id == want) := by
  induction hv with
  | nil => cases h
  | cons a rest ih =>
    by_cases ha : a = want
    · simp [mutualCipherSuite, ha]
    · rcases List.mem_cons.mp h with h1 | h2
      · exact absurd h1.symm ha
      · simp [mutualCipherSuite, ha, ih h2]

/-- If the wanted id does not occur in the supported list,
mutualCipherSuite returns none. -/
theorem mutualCipherSuite_not_mem (hv : List Nat) (want : Nat)
    (h : want ∉ hv) : mutualCipherSuite hv want = none := by
  induction hv with
  | nil => rfl
  | cons a rest ih =>
    simp only [List.mem_cons, not_or] at h
    have ha : ¬ a = want := fun hq => h.1 hq.symm
    simp [mutualCipherSuite, ha, ih h.2]

/-- C1: mutualCipherSuite returns the descriptor with the peer-requested
id exactly when that id appears in the supported list and the global
table holds a descriptor with that id; otherwise (id not supported, or
supported but absent from the table) it returns none.  Concretely,
mutualCipherSuite [0x002f, 0xc013] 0xc013 returns the 0xc013 descriptor
and mutualCipherSuite [0x002f] 0xc013 returns none. -/
theorem mutualCipherSuite_spec (hv : List Nat) (want : Nat) :
    ((want ∈ hv ∧ ∃ s ∈ cipherSuites, s.id = want) →
      ∃ s ∈ cipherSuites, s.id = want ∧ mutualCipherSuite hv want = some s) ∧
    ((want ∉ hv ∨ ∀ s ∈ cipherSuites, s.id ≠ want) →
      mutualCipherSuite hv want = none) ∧
    mutualCipherSuite [0x002f, 0xc013] 0xc013 =
      some ⟨0xc013, 16, 20, 16, .ecdheRSAKA, suiteECDHE, some .cipherAES, some .macSHA1, none⟩ ∧
    mutualCipherSuite [0x002f] 0xc013 = none := by
  refine ⟨?_, ?_, by decide, by decide⟩
  · rintro ⟨hmem, s, hs, hid⟩
    rw [mutualCipherSuite_mem hv want hmem]
    have hsome : (cipherSuites.find? (fun t => t.id == want)).isSome := by
      rw [List.find?_isSome]
      exact ⟨s, hs, by simpa using hid⟩
    rcases Option.isSome_iff_exists.mp hsome with ⟨t, ht⟩
    refine ⟨t, List.mem_of_find?_eq_some ht, ?_, ht⟩
    have := List.find?_some ht
    simpa using this
  · rintro (hni | hall)
    · exact mutualCipherSuite_not_mem hv want hni
    · rcases Decidable.em (want ∈ hv) with hmem | hmem
      · rw [mutualCipherSuite_mem hv want hmem]
        rw [List.find?_eq_none]
        intro t ht
        simpa using hall t ht
      · exact mutualCipherSuite_not_mem hv want hmem

/-- Witness for the positive branch of mutualCipherSuite_spec at the
concrete inputs of the scenario. -/
theorem mutualCipherSuite_spec_witness :
    ∃ s ∈ cipherSuites, s.id = 0xc013 ∧
      mutualCipherSuite [0x002f, 0xc013] 0xc013 = some s :=
  (mutualCipherSuite_spec [0x002f, 0xc013] 0xc013).1
    ⟨by decide,
     ⟨⟨0xc013, 16, 20, 16, .ecdheRSAKA, suiteECDHE, some .cipherAES, some .macSHA1, none⟩,
      by decide, by decide⟩⟩

/-- C7: every row of the cipherSuites table is of exactly one shape:
cipher and mac factories present with no aead, or an aead factory with
neither cipher nor mac. -/
theorem cipherSuites_factory_shape (s : cipherSuite) (h : s ∈ cipherSuites) :
    (s.cipher.isSome ∧ s.mac.isSome ∧ s.aead = none) ∨
    (s.aead.isSome ∧ s.cipher = none ∧ s.mac = none) := by
  revert s h
  decide

/-- Witness for cipherSuites_factory_shape at the first table row. -/
theorem cipherSuites_factory_shape_witness :
    (cipherSuite.cipher ⟨0xc02f, 16, 0, 4, .ecdheRSAKA, Nat.lor suiteECDHE suiteTLS12, none, none, some .aeadAESGCM⟩).isSome ∧
      (cipherSuite.mac ⟨0xc02f, 16, 0, 4, .ecdheRSAKA, Nat.lor suiteECDHE suiteTLS12, none, none, some .aeadAESGCM⟩).isSome ∧
      (cipherSuite.aead ⟨0xc02f, 16, 0, 4, .ecdheRSAKA, Nat.lor suiteECDHE suiteTLS12, none, none, some .aeadAESGCM⟩) = none ∨
    (cipherSuite.aead ⟨0xc02f, 16, 0, 4, .ecdheRSAKA, Nat.lor suiteECDHE suiteTLS12, none, none, some .aeadAESGCM⟩).isSome ∧
      (cipherSuite.cipher ⟨0xc02f, 16, 0, 4, .ecdheRSAKA, Nat.lor suiteECDHE suiteTLS12, none, none, some .aeadAESGCM⟩) = none ∧
      (cipherSuite.mac ⟨0xc02f, 16, 0, 4, .ecdheRSAKA, Nat.lor suiteECDHE suiteTLS12, none, none, some .aeadAESGCM⟩) = none :=
  cipherSuites_factory_shape _ (by decide)

/-- C8: every AEAD row of the table has macLen 0 and ivLen 4, and the
lookup of id 0xc02f yields the AEAD descriptor with ivLen 4, macLen 0
and the aead factory present. -/
theorem cipherSuites_aead_lengths (s : cipherSuite) (h : s ∈ cipherSuites)
    (ha : s.aead.isSome) : s.macLen = 0 ∧ s.ivLen = 4 := by
  revert s h ha
  decide

/-- Witness for cipherSuites_aead_lengths, and the concrete 0xc02f
lookup of the scenario. -/
theorem cipherSuites_aead_lengths_witness :
    (cipherSuite.macLen ⟨0xc02f, 16, 0, 4, .ecdheRSAKA, Nat.lor suiteECDHE suiteTLS12, none, none, some .aeadAESGCM⟩ = 0 ∧
      cipherSuite.ivLen ⟨0xc02f, 16, 0, 4, .ecdheRSAKA, Nat.lor suiteECDHE suiteTLS12, none, none, some .aeadAESGCM⟩ = 4) ∧
    cipherSuites.find? (fun t => t.id == 0xc02f) =
      some ⟨0xc02f, 16, 0, 4, .ecdheRSAKA, Nat.lor suiteECDHE suiteTLS12, none, none, some .aeadAESGCM⟩ :=
  ⟨cipherSuites_aead_lengths _ (by decide) (by decide), by decide⟩

/-- C9: cipherInList is true exactly when the id literally occurs in the
list; in particular 0x009C is refused for the Firefox list although the
main table holds a descriptor with that id. -/
theorem cipherInList_spec :
    (∀ (c : Nat) (l : List Nat), cipherInList c l = true ↔ c ∈ l) ∧
    cipherInList 0x009C FirefoxCiphers = false ∧
    (∃ s ∈ cipherSuites, s.id = 0x009C) := by
  refine ⟨?_, by decide, by decide⟩
  intro c l
  induction l with
  | nil => simp [cipherInList]
  | cons a rest ih =>
    by_cases hc : c = a
    · simp [cipherInList, hc]
    · simp [cipherInList, hc, ih]

/-- A model of a Go hash.Hash implementation: its output size, block
size, and the digest function computed by a Reset/Write-sequence/Sum
round (the concrete compression mathematics of sha1 is external, so the
digest is carried as a function). -/
structure Hash where
  size : Nat
  blockSize : Nat
  digest : List Nat → List Nat

/-- ssl30MAC: the SSLv3 MAC state, an underlying hash and the secret. -/
structure ssl30MAC where
  h : Hash
  key : List Nat

/-- ssl30MAC.Size returns the underlying digest size. -/
def ssl30MAC.Size (s : ssl30MAC) : Nat := s.h.size

/-- ssl30Pad1: 48 bytes of 0x36 (the source spells out the 48 array
entries literally). -/
def ssl30Pad1 : List Nat := List.replicate 48 0x36

/-- ssl30Pad2: 48 bytes of 0x5c (the source spells out the 48 array
entries literally). -/
def ssl30Pad2 : List Nat := List.replicate 48 0x5c

/-- ssl30MAC.MAC: two-pass digest, pad length 40 when the digest is 20
bytes and 48 otherwise; of the record header only byte 0 and bytes 3-4
are written (header[:1] and header[3:5]).  The digestBuf scratch
argument is truncated before Sum, so it does not influence the result. -/
def ssl30MAC.MAC (s : ssl30MAC) (digestBuf seq header data : List Nat) : List Nat :=
  let padLength := if s.h.size = 20 then 40 else 48
  let firstDigest := s.h.digest (s.key ++ ssl30Pad1.take padLength ++ seq ++
    header.take 1 ++ (header.drop 3).take 2 ++ data)
  s.h.digest (s.key ++ ssl30Pad2.take padLength ++ firstDigest)

/-- tls10MAC: the TLS 1.0 record MAC state, a keyed hash (HMAC). -/
structure tls10MAC where
  h : Hash

/-- tls10MAC.Size returns the underlying digest size. -/
def tls10MAC.Size (s : tls10MAC) : Nat := s.h.size

/-- tls10MAC.MAC: single keyed-digest pass over seq, the full header,
and the payload. -/
def tls10MAC.MAC (s : tls10MAC) (digestBuf seq header data : List Nat) : List Nat :=
  s.h.digest (seq ++ header ++ data)

/-- Models Go crypto/hmac.New: the standard HMAC construction over the
given hash; its Size equals the underlying hash size. -/
def hmacNew (hackend : Hash) (key : List Nat) : Hash :=
  let k0 := if hackend.blockSize < key.length
    then hackend.digest key ++ List.replicate (hackend.blockSize - hackend.size) 0
    else key ++ List.replicate (hackend.blockSize - key.length) 0
  { size := hackend.size
    blockSize := hackend.blockSize
    digest := fun m => hackend.digest
      ((k0.map (fun b => Nat.xor b 0x5c)) ++
        hackend.digest ((k0.map (fun b => Nat.xor b 0x36)) ++ m)) }

/-- The macFunction interface: the two implementations that exist in
this file, each carrying its state. -/
inductive macFunction where
  | ssl30 (m : ssl30MAC)
  | tls10 (m : tls10MAC)

/-- macFunction.Size dispatches to the implementation. -/
def macFunction.Size : macFunction → Nat
  | .ssl30 m => m.Size
  | .tls10 m => m.Size

/-- VersionSSL30 is declared in a repository file outside the provided
sources; 0x0300 is the SSL 3.0 wire value it carries.  Only the
branching on it matters below, never the value itself. -/
def VersionSSL30 : Nat := 0x0300

/-- macSHA1: the ssl30MAC over sha1 for SSL 3.0 (the key is copied),
otherwise the tls10MAC over HMAC-SHA1.  The sha1 implementation is
external (crypto/sha1), so it is passed as the Hash argument. -/
def macSHA1 (sha1New : Hash) (version : Nat) (key : List Nat) : macFunction :=
  if version = VersionSSL30 then .ssl30 ⟨sha1New, key⟩
  else .tls10 ⟨hmacNew sha1New key⟩

/-- A size-20 hash stand-in used to instantiate parametric theorems at
concrete inputs. -/
def hashStandIn : Hash := ⟨20, 64, fun l => (l ++ List.replicate 20 0).take 20⟩

/-- A list of length 5 is its five elements. -/
theorem exists_five_of_length (l : List Nat) (h : l.length = 5) :
    ∃ a b c d e, l = [a, b, c, d, e] := by
  rcases l with _ | ⟨a, _ | ⟨b, _ | ⟨c, _ | ⟨d, _ | ⟨e, _ | ⟨f, t⟩⟩⟩⟩⟩⟩ <;>
    first
      | exact ⟨a, b, c, d, e, rfl⟩
      | (simp only [List.length_cons, List.length_nil] at h; omega)

/-- C4: the SSLv3 MAC pad blocks taken in both passes are replicated
0x36 and 0x5c bytes whose common length is 40 exactly when the digest
size is 20, and 48 otherwise. -/
theorem ssl30MAC_pad_blocks (s : ssl30MAC) (digestBuf seq header data : List Nat) :
    s.MAC digestBuf seq header data =
      s.h.digest (s.key ++
        List.replicate (if s.h.size = 20 then 40 else 48) 0x5c ++
        s.h.digest (s.key ++
          List.replicate (if s.h.size = 20 then 40 else 48) 0x36 ++
          seq ++ header.take 1 ++ (header.drop 3).take 2 ++ data)) ∧
    (s.h.size = 20 → (if s.h.size = 20 then 40 else 48) = 40) ∧
    (s.h.size ≠ 20 → (if s.h.size = 20 then 40 else 48) = 48) := by
  refine ⟨?_, fun h => by simp [h], fun h => by simp [h]⟩
  by_cases h : s.h.size = 20 <;>
    simp [ssl30MAC.MAC, h, ssl30Pad1, ssl30Pad2, List.take_replicate]

/-- Witness for ssl30MAC_pad_blocks: a 20-byte digest uses a 40-byte
pad. -/
theorem ssl30MAC_pad_blocks_witness :
    (if (ssl30MAC.mk hashStandIn []).h.size = 20 then 40 else 48) = 40 :=
  (ssl30MAC_pad_blocks ⟨hashStandIn, []⟩ [] [] [] []).2.1 rfl

/-- C3: for a 5-byte header the SSLv3 MAC is the two-pass digest over
secret, pad, sequence, header byte 0 and header bytes 3-4, then secret,
pad2 and the first digest; the version bytes (header bytes 1-2) never
influence the digest. -/
theorem ssl30MAC_header_slicing (s : ssl30MAC)
    (digestBuf seq header1 header2 data : List Nat)
    (hseq : seq.length = 8) (h1 : header1.length = 5) (h2 : header2.length = 5)
    (e0 : header1.getD 0 0 = header2.getD 0 0)
    (e3 : header1.getD 3 0 = header2.getD 3 0)
    (e4 : header1.getD 4 0 = header2.getD 4 0) :
    s.MAC digestBuf seq header1 data =
      s.h.digest (s.key ++ ssl30Pad2.take (if s.h.size = 20 then 40 else 48) ++
        s.h.digest (s.key ++ ssl30Pad1.take (if s.h.size = 20 then 40 else 48) ++
          seq ++ [header1.getD 0 0] ++ [header1.getD 3 0, header1.getD 4 0] ++ data)) ∧
    s.MAC digestBuf seq header1 data = s.MAC digestBuf seq header2 data := by
  obtain ⟨a1, b1, c1, d1, e1, rfl⟩ := exists_five_of_length header1 h1
  obtain ⟨a2, b2, c2, d2, e2, rfl⟩ := exists_five_of_length header2 h2
  simp only [List.getD_cons_zero, List.getD_cons_succ] at e0 e3 e4
  subst e0; subst e3; subst e4
  constructor
  · simp [ssl30MAC.MAC]
  · simp [ssl30MAC.MAC]

/-- Witness for ssl30MAC_header_slicing: two headers differing only in
the version bytes produce the same MAC. -/
theorem ssl30MAC_header_slicing_witness :
    ssl30MAC.MAC ⟨hashStandIn, [1, 2]⟩ [] (List.replicate 8 0) [22, 3, 0, 0, 5] [7] =
      ssl30MAC.MAC ⟨hashStandIn, [1, 2]⟩ [] (List.replicate 8 0) [22, 3, 1, 0, 5] [7] :=
  (ssl30MAC_header_slicing ⟨hashStandIn, [1, 2]⟩ [] (List.replicate 8 0)
    [22, 3, 0, 0, 5] [22, 3, 1, 0, 5] [7]
    (by decide) (by decide) (by decide) (by decide) (by decide) (by decide)).2

/-- C10: for every table row whose mac factory is present, the
macFunction built by macSHA1 (over sha1, whose digest size is 20)
reports Size equal to the row's macLen, for every version and key. -/
theorem macSHA1_size_matches_macLen (sha1New : Hash) (hs : sha1New.size = 20)
    (s : cipherSuite) (hmem : s ∈ cipherSuites) (hmac : s.mac = some .macSHA1)
    (version : Nat) (key : List Nat) :
    (macSHA1 sha1New version key).Size = s.macLen := by
  have hlen : ∀ t ∈ cipherSuites, t.mac = some MacFactory.macSHA1 → t.macLen = 20 := by
    decide
  rw [hlen s hmem hmac]
  by_cases hv : version = VersionSSL30 <;>
    simp [macSHA1, hv, macFunction.Size, ssl30MAC.Size, tls10MAC.Size, hmacNew, hs]

/-- Witness for macSHA1_size_matches_macLen at the TLS_RSA_WITH_RC4_128_SHA
row, SSL 3.0 branch. -/
theorem macSHA1_size_matches_macLen_witness :
    (macSHA1 hashStandIn VersionSSL30 []).Size =
      cipherSuite.macLen ⟨0x0005, 16, 20, 0, .rsaKA, 0, some .cipherRC4, some .macSHA1, none⟩ :=
  macSHA1_size_matches_macLen hashStandIn rfl
    ⟨0x0005, 16, 20, 0, .rsaKA, 0, some .cipherRC4, some .macSHA1, none⟩
    (by decide) rfl VersionSSL30 []

/-- Models Go copy(dst, src): the first min-length bytes of dst are
replaced by the prefix of src, the tail of dst is kept; the length of
dst is preserved. -/
def goCopy (dst src : List Nat) : List Nat :=
  src.take dst.length ++ dst.drop (min dst.length src.length)

/-- Models Go copy(buf[i:], src): bytes before index i are kept, the
tail receives goCopy of src. -/
def goCopyFrom (buf : List Nat) (i : Nat) (src : List Nat) : List Nat :=
  buf.take i ++ goCopy (buf.drop i) src

/-- Models a Go cipher.AEAD value as consumed by the wrapper: nonce
size, tag overhead, and the Seal and Open operations (the out argument
is the prefix buffer Go appends to; the GCM mathematics is external,
so the operations are carried as functions). -/
structure InnerAEAD where
  nonceSize : Nat
  overhead : Nat
  Seal : List Nat → List Nat → List Nat → List Nat → List Nat
  Open : List Nat → List Nat → List Nat → List Nat → Option (List Nat)

/-- fixedNonceAEAD: the wrapped AEAD and the two independent 12-byte
nonce-construction buffers (one for sealing, one for opening). -/
structure fixedNonceAEAD where
  sealNonce : List Nat
  openNonce : List Nat
  aead : InnerAEAD

/-- NonceSize of the wrapper is the fixed 8 (the explicit portion). -/
def fixedNonceAEAD.NonceSize (_ : fixedNonceAEAD) : Nat := 8

/-- Overhead is delegated to the wrapped AEAD. -/
def fixedNonceAEAD.Overhead (f : fixedNonceAEAD) : Nat := f.aead.overhead

/-- Seal: overwrite the last 8 bytes of the seal buffer with the
explicit nonce, then seal under the full buffer.  The buffer mutation
is modelled by returning the updated record alongside the result. -/
def fixedNonceAEAD.Seal (f : fixedNonceAEAD)
    (out nonce plaintext additionalData : List Nat) :
    List Nat × fixedNonceAEAD :=
  let sn := goCopyFrom f.sealNonce (f.sealNonce.length - 8) nonce
  (f.aead.Seal out sn plaintext additionalData, { f with sealNonce := sn })

/-- Open: overwrite the last 8 bytes of the open buffer with the
explicit nonce, then open under the full buffer. -/
def fixedNonceAEAD.Open (f : fixedNonceAEAD)
    (out nonce ciphertext additionalData : List Nat) :
    Option (List Nat) × fixedNonceAEAD :=
  let opn := goCopyFrom f.openNonce (f.openNonce.length - 8) nonce
  (f.aead.Open out opn ciphertext additionalData, { f with openNonce := opn })

/-- A constructed AES block cipher (the block mathematics is external). -/
structure AESBlock where
  key : List Nat
deriving DecidableEq, Repr

/-- Models Go crypto/aes.NewCipher: a KeySizeError unless the key is
16, 24 or 32 bytes long. -/
def aesNewCipher (key : List Nat) : Option AESBlock :=
  if key.length = 16 ∨ key.length = 24 ∨ key.length = 32 then some ⟨key⟩ else none

/-- Outcome of a Go factory call: a runtime panic, or a returned value. -/
inductive FactoryResult (α : Type) where
  | panicked
  | ok (val : α)
deriving DecidableEq, Repr

/-- aeadAESGCM: panics when aes.NewCipher rejects the key length
(cipher.NewGCM never fails on the 16-byte AES block, so only that
panic is reachable); copies the fixed nonce into two fresh 12-byte
zero buffers; the GCM construction over the block is external and
passed in as newGCM. -/
def aeadAESGCM (newGCM : AESBlock → InnerAEAD) (key fixedNonce : List Nat) :
    FactoryResult fixedNonceAEAD :=
  match aesNewCipher key with
  | none => .panicked
  | some block =>
    let nonce1 := goCopy (List.replicate 12 0) fixedNonce
    let nonce2 := goCopy (List.replicate 12 0) fixedNonce
    .ok ⟨nonce1, nonce2, newGCM block⟩

/-- goCopy over a source of exactly the destination length replaces the
destination entirely. -/
theorem goCopy_full (dst src : List Nat) (h : dst.length = src.length) :
    goCopy dst src = src := by
  unfold goCopy
  rw [h, List.take_length, min_self, ← h, List.drop_length, List.append_nil]

/-- Writing an 8-byte nonce at offset 4 of a 12-byte buffer keeps the
first four bytes and replaces the rest. -/
theorem goCopyFrom_tail (buf nonce : List Nat) (hb : buf.length = 12)
    (hn : nonce.length = 8) :
    goCopyFrom buf (buf.length - 8) nonce = buf.take 4 ++ nonce := by
  unfold goCopyFrom
  rw [hb]
  norm_num
  apply goCopy_full
  simp [hb, hn]

/-- goCopy of a 4-byte fixed nonce into a 12-byte zero buffer yields the
nonce followed by eight zero bytes. -/
theorem goCopy_replicate12 (fn : List Nat) (h : fn.length = 4) :
    goCopy (List.replicate 12 0) fn = fn ++ List.replicate 8 0 := by
  unfold goCopy
  simp [h, List.take_of_length_le, List.drop_replicate]

/-- C5: the wrapper reports nonce size 8; every Seal and Open call
passes to the wrapped AEAD a 12-byte nonce equal to the 4-byte salt
followed by the caller-supplied 8-byte explicit nonce; the updated
buffers keep the salt in their first four bytes (so the invariant holds
after any number of calls), each call touches only its own buffer, and
aeadAESGCM establishes the invariant with the given fixed nonce as
salt. -/
theorem fixedNonceAEAD_nonce_invariant (f : fixedNonceAEAD)
    (salt out nonce pt ad : List Nat)
    (hs : f.sealNonce.length = 12) (ho : f.openNonce.length = 12)
    (hss : f.sealNonce.take 4 = salt) (hos : f.openNonce.take 4 = salt)
    (hn : nonce.length = 8) :
    f.NonceSize = 8 ∧
    (f.Seal out nonce pt ad).1 = f.aead.Seal out (salt ++ nonce) pt ad ∧
    (f.Seal out nonce pt ad).2.sealNonce = salt ++ nonce ∧
    (f.Seal out nonce pt ad).2.sealNonce.length = 12 ∧
    (f.Seal out nonce pt ad).2.sealNonce.take 4 = salt ∧
    (f.Seal out nonce pt ad).2.openNonce = f.openNonce ∧
    (f.Open out nonce pt ad).1 = f.aead.Open out (salt ++ nonce) pt ad ∧
    (f.Open out nonce pt ad).2.openNonce = salt ++ nonce ∧
    (f.Open out nonce pt ad).2.openNonce.length = 12 ∧
    (f.Open out nonce pt ad).2.openNonce.take 4 = salt ∧
    (f.Open out nonce pt ad).2.sealNonce = f.sealNonce ∧
    (∀ (newGCM : AESBlock → InnerAEAD) (key fn : List Nat) (g : fixedNonceAEAD),
      fn.length = 4 → aeadAESGCM newGCM key fn = .ok g →
      g.sealNonce.length = 12 ∧ g.openNonce.length = 12 ∧
      g.sealNonce.take 4 = fn ∧ g.openNonce.take 4 = fn) := by
  have hsl : salt.length = 4 := by rw [← hss]; simp [hs]
  have htake : (salt ++ nonce).take 4 = salt := by
    rw [← hsl, List.take_left]
  have hlen : (salt ++ nonce).length = 12 := by simp [hsl, hn]
  have hseal := goCopyFrom_tail f.sealNonce nonce hs hn
  have hopen := goCopyFrom_tail f.openNonce nonce ho hn
  refine ⟨rfl, ?_, ?_, ?_, ?_, rfl, ?_, ?_, ?_, ?_, rfl, ?_⟩
  · simp only [fixedNonceAEAD.Seal, hseal, hss]
  · simp only [fixedNonceAEAD.Seal, hseal, hss]
  · simp only [fixedNonceAEAD.Seal, hseal, hss, hlen]
  · simp only [fixedNonceAEAD.Seal, hseal, hss, htake]
  · simp only [fixedNonceAEAD.Open, hopen, hos]
  · simp only [fixedNonceAEAD.Open, hopen, hos]
  · simp only [fixedNonceAEAD.Open, hopen, hos, hlen]
  · simp only [fixedNonceAEAD.Open, hopen, hos, htake]
  · intro newGCM key fn g hfn hg
    unfold aeadAESGCM at hg
    cases hcase : aesNewCipher key with
    | none => rw [hcase] at hg; cases hg
    | some block =>
      rw [hcase] at hg
      cases hg
      have hrep := goCopy_replicate12 fn hfn
      have hlen2 : (goCopy (List.replicate 12 0) fn).length = 12 := by
        rw [hrep]; simp [hfn]
      have htk : (goCopy (List.replicate 12 0) fn).take 4 = fn := by
        rw [hrep, ← hfn, List.take_left]
      exact ⟨hlen2, hlen2, htk, htk⟩

/-- A trivial inner AEAD (Seal returns the plaintext, Open returns the
ciphertext) used only to instantiate the wrapper theorems. -/
def idAEAD : InnerAEAD := ⟨12, 0, fun _ _ p _ => p, fun _ _ c _ => some c⟩

/-- A concrete wrapper instance with salt 1,2,3,4 used only to
instantiate the wrapper theorems. -/
def saltAEAD : fixedNonceAEAD :=
  ⟨[1, 2, 3, 4] ++ List.replicate 8 0, [1, 2, 3, 4] ++ List.replicate 8 0, idAEAD⟩

/-- Witness for fixedNonceAEAD_nonce_invariant at a concrete instance. -/
theorem fixedNonceAEAD_nonce_invariant_witness :
    fixedNonceAEAD.NonceSize saltAEAD = 8 :=
  (fixedNonceAEAD_nonce_invariant saltAEAD [1, 2, 3, 4] [] (List.replicate 8 9) [] []
    (by decide) (by decide) (by decide) (by decide) (by decide)).1

/-- C6: whenever the wrapped AEAD round-trips on 12-byte nonces, the
wrapper round-trips: opening the output of Seal under the same 8-byte
explicit nonce and additional data returns the original plaintext. -/
theorem fixedNonceAEAD_roundtrip (f : fixedNonceAEAD) (nonce pt ad : List Nat)
    (hs : f.sealNonce.length = 12) (ho : f.openNonce.length = 12)
    (hsalt : f.openNonce.take 4 = f.sealNonce.take 4)
    (hn : nonce.length = 8)
    (hinner : ∀ n p a, n.length = 12 →
      f.aead.Open [] n (f.aead.Seal [] n p a) a = some p) :
    ((f.Seal [] nonce pt ad).2.Open [] nonce (f.Seal [] nonce pt ad).1 ad).1 = some pt := by
  have hsalt4 : (f.sealNonce.take 4).length = 4 := by simp [hs]
  simp only [fixedNonceAEAD.Seal, fixedNonceAEAD.Open]
  rw [goCopyFrom_tail f.sealNonce nonce hs hn]
  rw [goCopyFrom_tail f.openNonce nonce ho hn]
  rw [hsalt]
  exact hinner _ pt ad (by simp [hsalt4, hn])

/-- Witness for fixedNonceAEAD_roundtrip at a concrete instance. -/
theorem fixedNonceAEAD_roundtrip_witness :
    ((saltAEAD.Seal [] (List.replicate 8 7) [5] []).2.Open []
      (List.replicate 8 7) (saltAEAD.Seal [] (List.replicate 8 7) [5] []).1 []).1 =
      some [5] :=
  fixedNonceAEAD_roundtrip saltAEAD (List.replicate 8 7) [5] []
    (by decide) (by decide) rfl (by decide) (fun _ _ _ _ => rfl)

/-- A constructed RC4 stream cipher (the keystream mathematics is
external; rc4.NewCipher accepts any key length from 1 to 256). -/
structure RC4Cipher where
  key : List Nat
deriving DecidableEq, Repr

/-- Models Go crypto/rc4.NewCipher: a KeySizeError unless the key
length is between 1 and 256 bytes. -/
def rc4NewCipher (key : List Nat) : Option RC4Cipher :=
  if 1 ≤ key.length ∧ key.length ≤ 256 then some ⟨key⟩ else none

/-- A constructed triple-DES block cipher. -/
structure DESBlock where
  key : List Nat
deriving DecidableEq, Repr

/-- Models Go crypto/des.NewTripleDESCipher: a KeySizeError unless the
key is 24 bytes long. -/
def desNewTripleDESCipher (key : List Nat) : Option DESBlock :=
  if key.length = 24 then some ⟨key⟩ else none

/-- A constructed CBC encrypter or decrypter state (the chaining
mathematics is external). -/
structure CBCState where
  key : List Nat
  iv : List Nat
  isRead : Bool
deriving DecidableEq, Repr

/-- cipherRC4: the rc4.NewCipher error is discarded with a blank
identifier; the (possibly nil) cipher is returned as-is, and the call
itself can never panic. -/
def cipherRC4 (key iv : List Nat) (isRead : Bool) : FactoryResult (Option RC4Cipher) :=
  .ok (rc4NewCipher key)

/-- cipher3DES: the des.NewTripleDESCipher error is discarded; on a
rejected key the nil block makes NewCBCEncrypter/Decrypter panic (a
method call on a nil interface), and those constructors also panic
when the iv length differs from the 8-byte DES block size. -/
def cipher3DES (key iv : List Nat) (isRead : Bool) : FactoryResult CBCState :=
  match desNewTripleDESCipher key with
  | none => .panicked
  | some block => if iv.length = 8 then .ok ⟨block.key, iv, isRead⟩ else .panicked

/-- cipherAES: same shape as cipher3DES, over aes.NewCipher and the
16-byte AES block size. -/
def cipherAES (key iv : List Nat) (isRead : Bool) : FactoryResult CBCState :=
  match aesNewCipher key with
  | none => .panicked
  | some block => if iv.length = 16 then .ok ⟨block.key, iv, isRead⟩ else .panicked

/-- Counterexample to C2: an 8-byte key is the wrong length for every
RC4 suite (all have keyLen 16), yet cipherRC4 does not panic and
returns a fully usable cipher built from it. -/
theorem cipherRC4_wrong_length_no_panic :
    (List.replicate 8 (0 : Nat)).length = 8 ∧ (8 : Nat) ≠ 16 ∧
    cipherRC4 (List.replicate 8 0) [] true ≠ FactoryResult.panicked ∧
    cipherRC4 (List.replicate 8 0) [] true = .ok (some ⟨List.replicate 8 0⟩) := by
  decide

/-- C2 (amended): the AEAD factory panics exactly on key lengths other
than 16, 24 or 32, and the CBC factories panic exactly when the block
constructor rejects the key or the iv length differs from the block
size; the stream-cipher factory however never panics: it discards the
constructor error and yields a usable cipher for every key length from
1 to 256, regardless of the descriptor's keyLen. -/
theorem factories_wrong_length_behaviour (key iv : List Nat) (isRead : Bool)
    (newGCM : AESBlock → InnerAEAD) (fixedNonce : List Nat) :
    cipherRC4 key iv isRead ≠ FactoryResult.panicked ∧
    (cipherRC4 key iv isRead = .ok (some ⟨key⟩) ↔
      1 ≤ key.length ∧ key.length ≤ 256) ∧
    (cipherAES key iv isRead = .panicked ↔
      ¬((key.length = 16 ∨ key.length = 24 ∨ key.length = 32) ∧ iv.length = 16)) ∧
    (cipher3DES key iv isRead = .panicked ↔ ¬(key.length = 24 ∧ iv.length = 8)) ∧
    (aeadAESGCM newGCM key fixedNonce = .panicked ↔
      ¬(key.length = 16 ∨ key.length = 24 ∨ key.length = 32)) := by
  refine ⟨by simp [cipherRC4], ?_, ?_, ?_, ?_⟩
  · by_cases h : 1 ≤ key.length ∧ key.length ≤ 256 <;>
      simp [cipherRC4, rc4NewCipher, h]
  · by_cases hk : key.length = 16 ∨ key.length = 24 ∨ key.length = 32 <;>
      by_cases hiv : iv.length = 16 <;>
        simp [cipherAES, aesNewCipher, hk, hiv]
  · by_cases hk : key.length = 24 <;>
      by_cases hiv : iv.length = 8 <;>
        simp [cipher3DES, desNewTripleDESCipher, hk, hiv]
  · by_cases hk : key.length = 16 ∨ key.length = 24 ∨ key.length = 32 <;>
      simp [aeadAESGCM, aesNewCipher, hk]
